import Mathlib

/-!
Shallow embedding of the order-placement workflow of the `shop` Django app
(`src/ecom/Ecom/shop/views.py` and `src/ecom/Ecom/shop/models.py`).

Modelling choices:
* Money (`Products.price`, cart price snapshots, `Order.total_amount`) is
  embedded as `ℚ`; the source stores 2-decimal values, stringifies them into
  the session cart, and recombines them with `float` arithmetic, and every
  concrete value the spec mentions is exact in both representations.
* The session cart (a Python dict keyed by `str(product_id)` with insertion
  order) is an association list `List (Nat × CartEntry)`; Python's `str` on
  ids is injective, so keys stay `Nat`.
* `Products.stock` is `ℤ` (the source decrements it with no lower bound).
* The relational store is a `Db` record; Django's per-row `save()` calls
  become functional updates applied in the source's statement order.
* Django persists a session at the end of a request only when the view set
  `request.session.modified` (the cart views set it explicitly after every
  write).  `cart_view` mutates the in-memory dict but never sets the flag,
  so the embedding of a whole `cart_view` request carries both the mutated
  in-memory mapping and the flag-guarded persisted mapping.
-/

/-- Model of `shop.models.Products`: id, name, price (DecimalField), stock
(IntegerField, decremented without guard at checkout).  The description and
category fields play no part in the claims and are omitted. -/
structure Product where
  id : Nat
  name : String
  price : ℚ
  stock : ℤ
deriving Repr, DecidableEq

/-- One value of the session cart dict built by `add_to_cart`:
`{'name': ..., 'price': str(product.price), 'quantity': ...}`.
`cart_view` later stores a computed `'total'` key into the same dict, so the
entry carries an optional `total` field, `none` until `cart_view` writes it. -/
structure CartEntry where
  name : String
  price : ℚ
  quantity : ℤ
  total : Option ℚ
deriving Repr, DecidableEq

/-- The session cart: `request.session['cart']`, a dict keyed by product id. -/
abbrev Cart := List (Nat × CartEntry)

/-- Model of `shop.models.Order`: customer FK, many-to-many product set, snapshot
total, status string, creation timestamp (modelled as a `Nat` tick). -/
structure Order where
  id : Nat
  customer : Nat
  total_amount : ℚ
  status : String
  products : List Nat
  created_at : Nat
deriving Repr, DecidableEq

/-- The relational store visible to the checkout workflow. -/
structure Db where
  products : List Product
  orders : List Order
  nextOrderId : Nat
deriving Repr, DecidableEq

/-- Lookup `Products.objects.get(id=pid)` / `get_object_or_404(Products, id=pid)`:
`none` models `DoesNotExist` / HTTP 404. -/
def findProduct (ps : List Product) (pid : Nat) : Option Product :=
  ps.find? (fun p => p.id == pid)

/-- The key list of the cart dict (`cart.keys()`, in insertion order). -/
def cartKeys (c : Cart) : List Nat :=
  c.map (fun kv => kv.1)

/-- Python's `str(id) in cart` membership test. -/
def hasKey (c : Cart) (pid : Nat) : Bool :=
  (c.find? (fun kv => kv.1 == pid)).isSome

/-- One line's contribution: `float(item['price']) * item['quantity']`. -/
def lineTotal (e : CartEntry) : ℚ :=
  e.price * (e.quantity : ℚ)

/-- The running total both `cart_view` and `checkout` accumulate over
`cart.items()`. -/
def cartTotal (c : Cart) : ℚ :=
  (c.map (fun kv => lineTotal kv.2)).sum

/-- The view `shop.views.add_to_cart` (views.py:299-325): look the product up (404 if
absent), parse the request quantity (already an integer here), then either
increment the stored quantity of an existing entry or append a fresh entry
snapshotting the product's current name and price.  The view always sets
`request.session.modified = True`, so the returned cart is also the
persisted one. -/
def add_to_cart (catalog : List Product) (cart : Cart) (pid : Nat) (qty : ℤ) :
    Option Cart :=
  match findProduct catalog pid with
  | none => none
  | some p =>
      if hasKey cart pid then
        some (cart.map (fun kv =>
          if kv.1 == pid then (kv.1, { kv.2 with quantity := kv.2.quantity + qty })
          else kv))
      else
        some (cart ++ [(pid, { name := p.name, price := p.price, quantity := qty,
                               total := none })])

/-- The view `shop.views.remove_from_cart` (views.py:345-356): delete the entry when
its key is present (and set the modified flag), silently keep the cart
otherwise. -/
def remove_from_cart (cart : Cart) (pid : Nat) : Cart :=
  if hasKey cart pid then cart.filter (fun kv => kv.1 != pid) else cart

/-- What one full `cart_view` request leaves behind (views.py:327-343). -/
structure CartViewResult where
  items : List (Nat × CartEntry)
  total : ℚ
  sessionCartAfterView : Cart
  sessionModified : Bool
  persistedCart : Cart
deriving Repr, DecidableEq

/-- The view `shop.views.cart_view` (views.py:327-343): for each entry the view writes
`item['total'] = float(item['price']) * item['quantity']` into the session
dict itself, sums those totals, and copies `{'id': pid, **item}` into the
items list.  It never sets `request.session.modified`, and Django only
writes a session back when that flag is set, so the persisted cart is the
one the request started from. -/
def cart_view (cart : Cart) : CartViewResult :=
  let mutated := cart.map (fun kv =>
    (kv.1, { kv.2 with total := some (lineTotal kv.2) }))
  let modified := false
  { items := mutated
    total := cartTotal cart
    sessionCartAfterView := mutated
    sessionModified := modified
    persistedCart := if modified then mutated else cart }

/-- Where the checkout view sends the browser next. -/
inductive Redirect where
  | home
  | orderConfirmation (oid : Nat)
deriving Repr, DecidableEq

/-- Outcome of a POST to `checkout`: empty-cart rejection (warning plus
redirect to the catalog home), an unhandled `Products.DoesNotExist` raised
mid-loop for the named product id, or a placed order. -/
inductive CheckoutResult where
  | emptyCart
  | missingProduct (pid : Nat)
  | placed (oid : Nat)
deriving Repr, DecidableEq

/-- The redirect the source issues for each outcome (`missingProduct`
escapes as an unhandled exception, so no redirect. -/
def checkoutRedirect : CheckoutResult → Option Redirect
  | CheckoutResult.emptyCart => some Redirect.home
  | CheckoutResult.missingProduct _ => none
  | CheckoutResult.placed oid => some (Redirect.orderConfirmation oid)

/-- The write `order.products.add(product)` on every order row matching the id (ids
are unique in a real table; the map form is the faithful per-row update). -/
def addProductToOrder (orders : List Order) (oid pid : Nat) : List Order :=
  orders.map (fun o =>
    if o.id == oid then { o with products := o.products ++ [pid] } else o)

/-- The write `product.stock -= qty; product.save()` for the row with the given id. -/
def decrementStock (ps : List Product) (pid : Nat) (qty : ℤ) : List Product :=
  ps.map (fun p => if p.id == pid then { p with stock := p.stock - qty } else p)

/-- The per-product loop of `checkout` (views.py:398-407): for each cart key
in order, fetch the product (`Products.objects.get` raises on a vanished
id, aborting the request and leaving every earlier write in place), link it
to the order, then decrement and save its stock.  Returns the store after
the writes that happened, and the offending product id if the loop raised. -/
def processLines (oid : Nat) : Db → List (Nat × CartEntry) → Db × Option Nat
  | db, [] => (db, none)
  | db, (pid, e) :: rest =>
      match findProduct db.products pid with
      | none => (db, some pid)
      | some _ =>
          processLines oid
            { db with
              orders := addProductToOrder db.orders oid pid
              products := decrementStock db.products pid e.quantity } rest

/-- The row `Order.objects.create(customer=..., total_amount=total,
status='pending')` inserts (views.py:392-396): the total is the sum of
snapshot price × quantity over the session cart, and the product set
starts empty. -/
def orderRow (db : Db) (customerId now : Nat) (cart : Cart) : Order :=
  { id := db.nextOrderId, customer := customerId,
    total_amount := cartTotal cart, status := "pending", products := [],
    created_at := now }

/-- The store right after the Order row is inserted and before any product
is touched. -/
def dbWithOrder (db : Db) (customerId now : Nat) (cart : Cart) : Db :=
  { db with orders := db.orders ++ [orderRow db customerId now cart],
            nextOrderId := db.nextOrderId + 1 }

/-- The view `shop.views.checkout`, POST branch (views.py:361-414): reject an empty
cart with a warning and a redirect home; otherwise compute the total from
the session snapshots, insert the Order row (status `pending`, computed
total) BEFORE touching any product, run the per-product loop, and only on
full success clear the cart and redirect to the confirmation page.  The
customer upsert never fails (create-on-missing) and does not touch the
stores modelled here.  Result: store after the request, session cart after
the request, outcome. -/
def checkout (db : Db) (customerId : Nat) (now : Nat) (cart : Cart) :
    Db × Cart × CheckoutResult :=
  if cart.isEmpty then (db, cart, CheckoutResult.emptyCart)
  else
    match processLines db.nextOrderId (dbWithOrder db customerId now cart) cart with
    | (db2, some pid) => (db2, cart, CheckoutResult.missingProduct pid)
    | (db2, none) => (db2, [], CheckoutResult.placed db.nextOrderId)

/-- The view `shop.views.order_list` (views.py:451-466): all orders newest first
(`order_by('-created_at')`), then `filter(status=...)` only when the query
parameter is present and truthy (Python's `if status_filter:` treats the
empty string as no filter). -/
def order_list (orders : List Order) (status_filter : Option String) :
    List Order :=
  let sorted := orders.mergeSort (fun a b => decide (b.created_at ≤ a.created_at))
  match status_filter with
  | none => sorted
  | some s => if s == "" then sorted else sorted.filter (fun o => o.status == s)

/-- The view `shop.views.order_confirmation` (views.py:429-433): plain
`get_object_or_404(Order, id=order_id)` with no `login_required` decorator
and no read of `request.user`; the requester argument (`none` = anonymous)
is deliberately unused, exactly as in the source. -/
def order_confirmation (requester : Option Nat) (orders : List Order)
    (order_id : Nat) : Option Order :=
  orders.find? (fun o => o.id == order_id)

/-- A request-level cart operation, as dispatched by `urls.py`: an
`add-to-cart/<id>/?quantity=q` hit or a `remove-from-cart/<id>/` hit. -/
inductive CartOp where
  | add (pid : Nat) (qty : ℤ)
  | remove (pid : Nat)
deriving Repr, DecidableEq

/-- Effect of one cart request on the session (a failed add — unknown
product id, HTTP 404 — leaves the cart untouched). -/
def applyOp (catalog : List Product) (cart : Cart) : CartOp → Cart
  | CartOp.add pid qty => (add_to_cart catalog cart pid qty).getD cart
  | CartOp.remove pid => remove_from_cart cart pid

/-- Effect of a sequence of cart requests on the session. -/
def applyOps (catalog : List Product) (cart : Cart) (ops : List CartOp) : Cart :=
  ops.foldl (applyOp catalog) cart

/-- Total quantity the checkout loop subtracts from the product with the
given id: the sum of the quantities of every cart line keyed by it.  A
session cart is a dict, so each key occurs once and this is the single
entry's quantity. -/
def sumQty (lines : List (Nat × CartEntry)) (pid : Nat) : ℤ :=
  ((lines.filter (fun kv => kv.1 == pid)).map (fun kv => kv.2.quantity)).sum

/-- Catalog for the worked checkout example: A at 10.00, B at 5.00. -/
def dbC1 : Db :=
  { products := [⟨1, "A", 10, 3⟩, ⟨2, "B", 5, 1⟩], orders := [], nextOrderId := 1 }

/-- The spec's worked cart: A with quantity 2 at 10.00, B with 1 at 5.00. -/
def cartC1 : Cart :=
  [(1, ⟨"A", 10, 2, none⟩), (2, ⟨"B", 5, 1, none⟩)]

/-- Store after checking `cartC1` out of `dbC1` as customer 7 at tick 0. -/
def dbC1after : Db :=
  { products := [⟨1, "A", 10, 1⟩, ⟨2, "B", 5, 0⟩],
    orders := [⟨1, 7, 25, "pending", [1, 2], 0⟩], nextOrderId := 2 }

/-- Cart for the stock-decrement example: all 3 units of A, and 2 units of
B of which only 1 is in stock. -/
def cartC2 : Cart :=
  [(1, ⟨"A", 10, 3, none⟩), (2, ⟨"B", 5, 2, none⟩)]

/-- Store after checking `cartC2` out of `dbC1`: A at stock 0, B at -1. -/
def dbC2after : Db :=
  { products := [⟨1, "A", 10, 0⟩, ⟨2, "B", 5, -1⟩],
    orders := [⟨1, 7, 40, "pending", [1, 2], 0⟩], nextOrderId := 2 }

/-- Catalog in which product 2 has vanished (only product 1 remains). -/
def dbC3 : Db :=
  { products := [⟨1, "A", 10, 5⟩], orders := [], nextOrderId := 1 }

/-- A cart still holding a snapshot of the vanished product 2. -/
def cartC3 : Cart :=
  [(1, ⟨"A", 10, 2, none⟩), (2, ⟨"B", 5, 1, none⟩)]

/-- One-product catalog used to instantiate the add-to-cart theorems. -/
def catalogC5 : List Product := [⟨1, "A", 10, 5⟩]

/-- Two-product catalog for the cart-operation-sequence witness. -/
def catalogC6 : List Product := [⟨1, "A", 10, 5⟩, ⟨2, "B", 5, 9⟩]

/-- A request sequence mixing adds and removes, every quantity ≥ 1. -/
def opsC6 : List CartOp :=
  [CartOp.add 1 2, CartOp.add 1 3, CartOp.remove 2, CartOp.add 2 1]

/-- One-line cart used to instantiate the remove-from-cart theorem. -/
def cartC8 : Cart := [(1, ⟨"A", 10, 2, none⟩)]

/-- Order table with two pending orders and one shipped, out of creation
order, used to instantiate the order-listing theorem. -/
def ordersC9 : List Order :=
  [⟨1, 7, 25, "pending", [1], 10⟩, ⟨2, 8, 30, "shipped", [2], 30⟩,
   ⟨3, 9, 40, "pending", [1], 20⟩]

/-- A stored order owned by customer 7. -/
def orderC10 : Order := ⟨1, 7, 25, "pending", [1], 0⟩

/-- Order table holding just `orderC10`. -/
def ordersC10 : List Order := [orderC10]

/-- Whether a cart request carries a positive quantity: an add with its
parsed `?quantity=` value at least 1 (the default when the parameter is
absent), or any remove. -/
def opQtyPositive : CartOp → Bool
  | CartOp.add _ qty => decide (1 ≤ qty)
  | CartOp.remove _ => true

lemma hasKey_false_iff (c : Cart) (pid : Nat) :
    hasKey c pid = false ↔ ∀ kv ∈ c, kv.1 ≠ pid := by
  unfold hasKey
  rw [← Bool.not_eq_true, Option.not_isSome_iff_eq_none, List.find?_eq_none]
  simp

lemma remove_from_cart_absent (cart : Cart) (pid : Nat)
    (h : hasKey cart pid = false) : remove_from_cart cart pid = cart := by
  simp [remove_from_cart, h]

lemma hasKey_remove_self (cart : Cart) (pid : Nat)
    (hk : hasKey cart pid = true) :
    hasKey (remove_from_cart cart pid) pid = false := by
  rw [hasKey_false_iff]
  intro kv hkv
  rw [remove_from_cart, if_pos hk] at hkv
  exact bne_iff_ne.mp (List.mem_filter.mp hkv).2

/-- C4: checkout on an empty session cart creates no order, changes no
stock, leaves the (empty) cart as it was, reports the cart-empty condition,
and redirects to the catalog home. -/
theorem checkout_empty_cart (db : Db) (cust now : Nat) :
    checkout db cust now [] = (db, [], CheckoutResult.emptyCart) ∧
    checkoutRedirect CheckoutResult.emptyCart = some Redirect.home :=
  ⟨rfl, rfl⟩

/-- C7: viewing the cart computes each line total as unit price × quantity
and their sum, and the session cart the store holds after the request is
exactly the one it held before (the view never marks the session modified,
so its in-dict scratch writes are not persisted). -/
theorem cart_view_read_only (cart : Cart) :
    (cart_view cart).total = cartTotal cart ∧
    (cart_view cart).items =
      cart.map (fun kv => (kv.1, { kv.2 with total := some (lineTotal kv.2) })) ∧
    (cart_view cart).sessionModified = false ∧
    (cart_view cart).persistedCart = cart :=
  ⟨rfl, rfl, rfl, rfl⟩

/-- C8: removing an absent product id leaves the cart unchanged without
failing, and removing twice equals removing once. -/
theorem remove_from_cart_noop_idempotent (cart : Cart) (pid : Nat) :
    (hasKey cart pid = false → remove_from_cart cart pid = cart) ∧
    remove_from_cart (remove_from_cart cart pid) pid =
      remove_from_cart cart pid := by
  refine ⟨fun h => remove_from_cart_absent cart pid h, ?_⟩
  by_cases hk : hasKey cart pid = true
  · exact remove_from_cart_absent _ _ (hasKey_remove_self cart pid hk)
  · have h0 : hasKey cart pid = false := by
      cases h : hasKey cart pid
      · rfl
      · exact absurd h hk
    rw [remove_from_cart_absent cart pid h0, remove_from_cart_absent cart pid h0]

/-- Witness for C8 at a concrete cart and an id not in it. -/
theorem remove_from_cart_noop_idempotent_witness :
    hasKey cartC8 5 = false ∧ remove_from_cart cartC8 5 = cartC8 ∧
    remove_from_cart (remove_from_cart cartC8 5) 5 = remove_from_cart cartC8 5 :=
  ⟨by decide, (remove_from_cart_noop_idempotent cartC8 5).1 (by decide),
    (remove_from_cart_noop_idempotent cartC8 5).2⟩

/-- C10: the order-confirmation view ignores who is asking — any two
requesters, anonymous included, get the same response — and for an order id
present in the table that response is the stored order. -/
theorem order_confirmation_no_ownership_check
    (u1 u2 : Option Nat) (orders : List Order) (oid : Nat) (o : Order)
    (ho : o ∈ orders) (hid : o.id = oid) :
    order_confirmation u1 orders oid = order_confirmation u2 orders oid ∧
    ∃ r, order_confirmation u1 orders oid = some r ∧ r.id = oid := by
  refine ⟨rfl, ?_⟩
  have hsome : (orders.find? (fun d => d.id == oid)).isSome := by
    rw [List.find?_isSome]
    exact ⟨o, ho, by simp [hid]⟩
  obtain ⟨r, hr⟩ := Option.isSome_iff_exists.mp hsome
  refine ⟨r, hr, ?_⟩
  simpa using List.find?_some hr

/-- Witness for C10: anonymous and customer 42 both retrieve order 1. -/
theorem order_confirmation_no_ownership_check_witness :
    orderC10 ∈ ordersC10 ∧ orderC10.id = 1 ∧
    (order_confirmation none ordersC10 1 = order_confirmation (some 42) ordersC10 1 ∧
     ∃ r, order_confirmation none ordersC10 1 = some r ∧ r.id = 1) :=
  ⟨by decide, by decide,
    order_confirmation_no_ownership_check none (some 42) ordersC10 1 orderC10
      (by decide) (by decide)⟩

lemma processLines_nil (oid : Nat) (db : Db) :
    processLines oid db [] = (db, none) := rfl

lemma processLines_cons_missing (oid : Nat) (db : Db) (pid : Nat)
    (e : CartEntry) (rest : List (Nat × CartEntry))
    (hf : findProduct db.products pid = none) :
    processLines oid db ((pid, e) :: rest) = (db, some pid) := by
  unfold processLines
  rw [hf]

lemma processLines_cons_found (oid : Nat) (db : Db) (pid : Nat)
    (e : CartEntry) (rest : List (Nat × CartEntry)) (p : Product)
    (hf : findProduct db.products pid = some p) :
    processLines oid db ((pid, e) :: rest) =
      processLines oid
        { db with orders := addProductToOrder db.orders oid pid
                  products := decrementStock db.products pid e.quantity }
        rest := by
  conv_lhs => rw [processLines]
  rw [hf]

lemma processLines_orders (oid : Nat) (lines : List (Nat × CartEntry)) :
    ∀ db db2 : Db, processLines oid db lines = (db2, none) →
      db2.orders = db.orders.map (fun o =>
        if o.id == oid then { o with products := o.products ++ cartKeys lines }
        else o) := by
  induction lines with
  | nil =>
      intro db db2 h
      rw [processLines_nil] at h
      injection h with h1 h2
      subst h1
      symm
      calc db.orders.map (fun o =>
              if o.id == oid then { o with products := o.products ++ cartKeys [] }
              else o)
          = db.orders.map id := by
            apply List.map_congr_left
            intro o _
            by_cases h1 : o.id == oid <;> simp [cartKeys, h1]
        _ = db.orders := List.map_id _
  | cons kv rest ih =>
      obtain ⟨pid, e⟩ := kv
      intro db db2 h
      cases hf : findProduct db.products pid with
      | none =>
          rw [processLines_cons_missing oid db pid e rest hf] at h
          injection h with h1 h2
          exact absurd h2 (by simp)
      | some p =>
          rw [processLines_cons_found oid db pid e rest p hf] at h
          have ih2 := ih _ _ h
          rw [ih2]
          show (addProductToOrder db.orders oid pid).map _ = _
          rw [addProductToOrder, List.map_map]
          apply List.map_congr_left
          intro o _
          by_cases h1 : o.id == oid <;>
            simp [Function.comp, cartKeys, h1]

lemma sumQty_nil (k : Nat) : sumQty [] k = 0 := rfl

lemma sumQty_cons (pid : Nat) (e : CartEntry) (rest : List (Nat × CartEntry))
    (k : Nat) :
    sumQty ((pid, e) :: rest) k =
      (if pid == k then e.quantity else 0) + sumQty rest k := by
  by_cases h : pid == k <;> simp [sumQty, List.filter_cons, h]

lemma processLines_products (oid : Nat) (lines : List (Nat × CartEntry)) :
    ∀ db db2 : Db, processLines oid db lines = (db2, none) →
      db2.products = db.products.map
        (fun p => { p with stock := p.stock - sumQty lines p.id }) := by
  induction lines with
  | nil =>
      intro db db2 h
      rw [processLines_nil] at h
      injection h with h1 h2
      subst h1
      symm
      calc db.products.map (fun p => { p with stock := p.stock - sumQty [] p.id })
          = db.products.map id := by
            apply List.map_congr_left
            intro p _
            simp [sumQty_nil]
        _ = db.products := List.map_id _
  | cons kv rest ih =>
      obtain ⟨pid, e⟩ := kv
      intro db db2 h
      cases hf : findProduct db.products pid with
      | none =>
          rw [processLines_cons_missing oid db pid e rest hf] at h
          injection h with h1 h2
          exact absurd h2 (by simp)
      | some p =>
          rw [processLines_cons_found oid db pid e rest p hf] at h
          have ih2 := ih _ _ h
          rw [ih2]
          show (decrementStock db.products pid e.quantity).map _ = _
          rw [decrementStock, List.map_map]
          apply List.map_congr_left
          intro q _
          by_cases h1 : q.id = pid
          · simp [Function.comp, h1, sumQty_cons, sub_sub]
          · simp [Function.comp, h1, sumQty_cons, Ne.symm h1]

lemma checkout_placed_inv (db db2 : Db) (cust now oid : Nat)
    (cart cart2 : Cart)
    (h : checkout db cust now cart = (db2, cart2, CheckoutResult.placed oid)) :
    oid = db.nextOrderId ∧ cart2 = [] ∧
    processLines db.nextOrderId (dbWithOrder db cust now cart) cart =
      (db2, none) := by
  unfold checkout at h
  by_cases hemp : cart.isEmpty
  · rw [if_pos hemp] at h
    injection h with h1 h2
    injection h2 with h3 h4
    exact absurd h4 (by simp)
  · rw [if_neg hemp] at h
    cases hpl : processLines db.nextOrderId (dbWithOrder db cust now cart) cart with
    | mk db2x r =>
        rw [hpl] at h
        cases r with
        | some pid =>
            injection h with h1 h2
            injection h2 with h3 h4
            exact absurd h4 (by simp)
        | none =>
            injection h with h1 h2
            injection h2 with h3 h4
            injection h4 with h5
            subst h1
            subst h3
            exact ⟨h5.symm, rfl, rfl⟩

lemma checkout_placed_order (db db2 : Db) (cust now oid : Nat)
    (cart cart2 : Cart)
    (h : checkout db cust now cart = (db2, cart2, CheckoutResult.placed oid)) :
    ∃ o ∈ db2.orders, o.id = oid ∧ o.total_amount = cartTotal cart ∧
      o.products = cartKeys cart := by
  obtain ⟨hoid, -, hpl⟩ := checkout_placed_inv db db2 cust now oid cart cart2 h
  subst hoid
  have horders := processLines_orders db.nextOrderId cart _ _ hpl
  have hmem : orderRow db cust now cart ∈ (dbWithOrder db cust now cart).orders := by
    simp [dbWithOrder]
  have hmem2 := List.mem_map_of_mem (fun o =>
    if o.id == db.nextOrderId then { o with products := o.products ++ cartKeys cart }
    else o) hmem
  rw [← horders] at hmem2
  refine ⟨_, hmem2, ?_, ?_, ?_⟩ <;> simp [orderRow]

lemma sumQty_zero_of_not_mem (c : Cart) (pid : Nat) (h : pid ∉ cartKeys c) :
    sumQty c pid = 0 := by
  have hf : c.filter (fun kv => kv.1 == pid) = [] := by
    rw [List.filter_eq_nil]
    intro kv hkv
    simp only [beq_iff_eq]
    intro he
    exact h (he ▸ List.mem_map_of_mem (fun kv => kv.1) hkv)
  simp [sumQty, hf]

lemma sumQty_of_mem_nodup (c : Cart) (hnd : (cartKeys c).Nodup)
    (kv : Nat × CartEntry) (hkv : kv ∈ c) : sumQty c kv.1 = kv.2.quantity := by
  induction c with
  | nil => cases hkv
  | cons hd tl ih =>
      obtain ⟨pid, e⟩ := hd
      rw [show cartKeys ((pid, e) :: tl) = pid :: cartKeys tl from rfl,
        List.nodup_cons] at hnd
      obtain ⟨hhd, hnd2⟩ := hnd
      rcases List.mem_cons.mp hkv with h | h
      · subst h
        rw [sumQty_cons]
        simp [sumQty_zero_of_not_mem tl pid hhd]
      · have hne : pid ≠ kv.1 := fun he =>
          hhd (he ▸ List.mem_map_of_mem (fun kv => kv.1) h)
        rw [sumQty_cons]
        simp [beq_iff_eq, hne, ih hnd2 h]

/-- C1: a successful checkout creates an order whose `total_amount` is the
sum of snapshot unit price × quantity over the cart lines — `cartTotal` is
a function of the session snapshots alone, so current catalog prices play
no part — and whose product set is exactly the cart's key list. -/
theorem checkout_total_from_snapshots (db db2 : Db) (cust now oid : Nat)
    (cart cart2 : Cart)
    (h : checkout db cust now cart = (db2, cart2, CheckoutResult.placed oid)) :
    ∃ o ∈ db2.orders, o.id = oid ∧ o.total_amount = cartTotal cart ∧
      o.products = cartKeys cart :=
  checkout_placed_order db db2 cust now oid cart cart2 h

/-- Witness for C1: the spec's worked cart (product 1: 2 units at 10.00,
product 2: 1 unit at 5.00) checks out to an order with total 25.00 and
exactly the two distinct product associations 1 and 2. -/
theorem checkout_total_from_snapshots_witness :
    checkout dbC1 7 0 cartC1 = (dbC1after, [], CheckoutResult.placed 1) ∧
    (∃ o ∈ dbC1after.orders, o.id = 1 ∧ o.total_amount = cartTotal cartC1 ∧
       o.products = cartKeys cartC1) ∧
    cartTotal cartC1 = 25 ∧ cartKeys cartC1 = [1, 2] ∧ (cartKeys cartC1).Nodup := by
  have hrun : checkout dbC1 7 0 cartC1 = (dbC1after, [], CheckoutResult.placed 1) := by
    norm_num [checkout, dbC1, cartC1, dbC1after, processLines, dbWithOrder,
      orderRow, findProduct, addProductToOrder, decrementStock, cartTotal,
      lineTotal, List.find?]
    rfl
  refine ⟨hrun,
    checkout_total_from_snapshots dbC1 dbC1after 7 0 1 cartC1 [] hrun,
    ?_, by decide, by decide⟩
  norm_num [cartTotal, lineTotal, cartC1]

/-- C2: a successful checkout attaches every cart key to the new order's
product set and rewrites every product row's stock to
old stock − (quantity the cart requests for it), with no guard that the
stock suffices; in particular each product in the cart loses exactly its
cart entry's quantity. -/
theorem checkout_attach_and_decrement (db db2 : Db) (cust now oid : Nat)
    (cart cart2 : Cart)
    (h : checkout db cust now cart = (db2, cart2, CheckoutResult.placed oid))
    (hnd : (cartKeys cart).Nodup) :
    (∃ o ∈ db2.orders, o.id = oid ∧ o.products = cartKeys cart) ∧
    db2.products = db.products.map
      (fun p => { p with stock := p.stock - sumQty cart p.id }) ∧
    ∀ p ∈ db.products, ∀ kv ∈ cart, p.id = kv.1 →
      { p with stock := p.stock - kv.2.quantity } ∈ db2.products := by
  obtain ⟨o, ho, hid, -, hprodset⟩ :=
    checkout_placed_order db db2 cust now oid cart cart2 h
  obtain ⟨-, -, hpl⟩ := checkout_placed_inv db db2 cust now oid cart cart2 h
  have hprods := processLines_products db.nextOrderId cart _ _ hpl
  have hdbp : (dbWithOrder db cust now cart).products = db.products := rfl
  rw [hdbp] at hprods
  refine ⟨⟨o, ho, hid, hprodset⟩, hprods, ?_⟩
  intro p hp kv hkv hpid
  have hq : sumQty cart p.id = kv.2.quantity := by
    rw [hpid]
    exact sumQty_of_mem_nodup cart hnd kv hkv
  rw [hprods, ← hq]
  exact List.mem_map_of_mem _ hp

/-- Witness for C2: product 1 has stock 3 and the cart asks for 3, ending
at stock 0; product 2 has stock 1 and the cart asks for 2, ending at the
negative stock -1 — no guard stopped it. -/
theorem checkout_attach_and_decrement_witness :
    checkout dbC1 7 0 cartC2 = (dbC2after, [], CheckoutResult.placed 1) ∧
    (cartKeys cartC2).Nodup ∧
    (∃ o ∈ dbC2after.orders, o.id = 1 ∧ o.products = cartKeys cartC2) ∧
    dbC2after.products = dbC1.products.map
      (fun p => { p with stock := p.stock - sumQty cartC2 p.id }) ∧
    (⟨1, "A", 10, 0⟩ : Product) ∈ dbC2after.products ∧
    (⟨2, "B", 5, -1⟩ : Product) ∈ dbC2after.products := by
  have hrun : checkout dbC1 7 0 cartC2 = (dbC2after, [], CheckoutResult.placed 1) := by
    norm_num [checkout, dbC1, cartC2, dbC2after, processLines, dbWithOrder,
      orderRow, findProduct, addProductToOrder, decrementStock, cartTotal,
      lineTotal, List.find?]
    rfl
  exact ⟨hrun, by decide,
    (checkout_attach_and_decrement dbC1 dbC2after 7 0 1 cartC2 [] hrun
      (by decide)).1,
    (checkout_attach_and_decrement dbC1 dbC2after 7 0 1 cartC2 [] hrun
      (by decide)).2.1,
    by decide, by decide⟩

/-- C3 is violated by the code: checking out a cart that still references
the vanished product 2 raises mid-loop (result `missingProduct 2`), yet the
Order row — total 25, product 1 already attached — is already inserted and
product 1's stock is already decremented from 5 to 3.  Only the session
cart survives unchanged. -/
theorem checkout_partial_writes_on_missing_product :
    (checkout dbC3 7 0 cartC3).2.2 = CheckoutResult.missingProduct 2 ∧
    (checkout dbC3 7 0 cartC3).1.orders =
      [{ id := 1, customer := 7, total_amount := 25, status := "pending",
         products := [1], created_at := 0 }] ∧
    (checkout dbC3 7 0 cartC3).1.products =
      [{ id := 1, name := "A", price := 10, stock := 3 }] ∧
    dbC3.orders = [] ∧
    dbC3.products = [{ id := 1, name := "A", price := 10, stock := 5 }] ∧
    (checkout dbC3 7 0 cartC3).2.1 = cartC3 := by
  have hrun : checkout dbC3 7 0 cartC3 =
      ({ products := [{ id := 1, name := "A", price := 10, stock := 3 }],
         orders := [{ id := 1, customer := 7, total_amount := 25,
                      status := "pending", products := [1], created_at := 0 }],
         nextOrderId := 2 }, cartC3, CheckoutResult.missingProduct 2) := by
    norm_num [checkout, dbC3, cartC3, processLines, dbWithOrder, orderRow,
      findProduct, addProductToOrder, decrementStock, cartTotal, lineTotal,
      List.find?]
    rfl
  rw [hrun]
  refine ⟨rfl, rfl, rfl, rfl, rfl, rfl⟩

lemma find?_none_of_hasKey_false (c : Cart) (pid : Nat)
    (h : hasKey c pid = false) :
    c.find? (fun kv => kv.1 == pid) = none := by
  rw [List.find?_eq_none]
  intro kv hkv
  simp only [beq_iff_eq]
  exact (hasKey_false_iff c pid).mp h kv hkv

lemma filter_key_eq_nil (c : Cart) (pid : Nat) (h : hasKey c pid = false) :
    c.filter (fun kv => kv.1 == pid) = [] := by
  rw [List.filter_eq_nil]
  intro kv hkv
  simp only [beq_iff_eq]
  exact (hasKey_false_iff c pid).mp h kv hkv

lemma hasKey_append_self (c : Cart) (pid : Nat) (e : CartEntry)
    (h : hasKey c pid = false) :
    hasKey (c ++ [(pid, e)]) pid = true := by
  unfold hasKey
  rw [List.find?_append, find?_none_of_hasKey_false c pid h]
  simp [List.find?]

lemma filter_key_map_inc (cart : Cart) (pid : Nat) (qty : ℤ) :
    (cart.map (fun kv =>
        if kv.1 == pid then (kv.1, { kv.2 with quantity := kv.2.quantity + qty })
        else kv)).filter (fun kv => kv.1 == pid) =
      (cart.filter (fun kv => kv.1 == pid)).map
        (fun kv => (kv.1, { kv.2 with quantity := kv.2.quantity + qty })) := by
  induction cart with
  | nil => rfl
  | cons hd tl ih =>
      by_cases hb : (hd.1 == pid) = true
      · have hd1 : hd.1 = pid := beq_iff_eq.mp hb
        simpa [List.filter_cons, beq_iff_eq, hd1] using ih
      · have hd1 : ¬ hd.1 = pid := fun h => hb (beq_iff_eq.mpr h)
        simpa [List.filter_cons, beq_iff_eq, hd1] using ih

/-- C5: adding the same catalog product twice merges into a single cart
entry whose quantity is q1+q2, and the first add of a product absent from
the cart appends a fresh entry snapshotting the product's current name and
price. -/
theorem add_to_cart_merge_and_snapshot (catalog : List Product) (cart : Cart)
    (pid : Nat) (p : Product) (q1 q2 : ℤ)
    (hp : findProduct catalog pid = some p)
    (habs : hasKey cart pid = false) :
    ∃ cart1 cart2,
      add_to_cart catalog cart pid q1 = some cart1 ∧
      cart1 = cart ++ [(pid, { name := p.name, price := p.price,
                               quantity := q1, total := none })] ∧
      add_to_cart catalog cart1 pid q2 = some cart2 ∧
      cart2.filter (fun kv => kv.1 == pid) =
        [(pid, { name := p.name, price := p.price, quantity := q1 + q2,
                 total := none })] := by
  have hk1 : hasKey (cart ++ [(pid, ⟨p.name, p.price, q1, none⟩)]) pid = true :=
    hasKey_append_self cart pid _ habs
  have h1 : add_to_cart catalog cart pid q1 =
      some (cart ++ [(pid, (⟨p.name, p.price, q1, none⟩ : CartEntry))]) := by
    simp [add_to_cart, hp, habs]
  have h2 : add_to_cart catalog
      (cart ++ [(pid, (⟨p.name, p.price, q1, none⟩ : CartEntry))]) pid q2 =
      some ((cart ++ [(pid, (⟨p.name, p.price, q1, none⟩ : CartEntry))]).map
        (fun kv =>
          if kv.1 == pid then (kv.1, { kv.2 with quantity := kv.2.quantity + q2 })
          else kv)) := by
    simp [add_to_cart, hp, hk1]
  have h3 : ((cart ++ [(pid, (⟨p.name, p.price, q1, none⟩ : CartEntry))]).map
        (fun kv =>
          if kv.1 == pid then (kv.1, { kv.2 with quantity := kv.2.quantity + q2 })
          else kv)).filter (fun kv => kv.1 == pid) =
      [(pid, (⟨p.name, p.price, q1 + q2, none⟩ : CartEntry))] := by
    rw [filter_key_map_inc, List.filter_append, filter_key_eq_nil cart pid habs]
    simp [List.filter]
  exact ⟨_, _, h1, rfl, h2, h3⟩

/-- Witness for C5: adding product 1 with quantity 2 then quantity 3 to an
empty cart leaves one entry for it with quantity 5 and the snapshot name
and price. -/
theorem add_to_cart_merge_and_snapshot_witness :
    findProduct catalogC5 1 = some ⟨1, "A", 10, 5⟩ ∧ hasKey [] 1 = false ∧
    ∃ cart1 cart2,
      add_to_cart catalogC5 [] 1 2 = some cart1 ∧
      cart1 = [] ++ [(1, ⟨"A", 10, 2, none⟩)] ∧
      add_to_cart catalogC5 cart1 1 3 = some cart2 ∧
      cart2.filter (fun kv => kv.1 == 1) = [(1, ⟨"A", 10, 2 + 3, none⟩)] :=
  ⟨by decide, by decide,
   add_to_cart_merge_and_snapshot catalogC5 [] 1 ⟨1, "A", 10, 5⟩ 2 3
     (by decide) (by decide)⟩

/-- C6 fails on the code: the add view parses the request quantity with a
bare int() and no positivity check, so a request carrying quantity 0 stores
a cart entry whose quantity is 0, violating quantity ≥ 1. -/
theorem cart_quantity_zero_possible :
    add_to_cart catalogC5 [] 1 0 =
      some [(1, { name := "A", price := 10, quantity := 0, total := none })] ∧
    ¬ (1 ≤ (0 : ℤ)) :=
  ⟨by decide, by decide⟩

lemma applyOp_add_missing (catalog : List Product) (cart : Cart) (pid : Nat)
    (qty : ℤ) (hf : findProduct catalog pid = none) :
    applyOp catalog cart (CartOp.add pid qty) = cart := by
  simp [applyOp, add_to_cart, hf]

lemma applyOp_add_inc (catalog : List Product) (cart : Cart) (pid : Nat)
    (qty : ℤ) (p : Product) (hf : findProduct catalog pid = some p)
    (hk : hasKey cart pid = true) :
    applyOp catalog cart (CartOp.add pid qty) =
      cart.map (fun kv =>
        if kv.1 == pid then (kv.1, { kv.2 with quantity := kv.2.quantity + qty })
        else kv) := by
  simp [applyOp, add_to_cart, hf, hk]

lemma applyOp_add_new (catalog : List Product) (cart : Cart) (pid : Nat)
    (qty : ℤ) (p : Product) (hf : findProduct catalog pid = some p)
    (hk : hasKey cart pid = false) :
    applyOp catalog cart (CartOp.add pid qty) =
      cart ++ [(pid, { name := p.name, price := p.price, quantity := qty,
                       total := none })] := by
  simp [applyOp, add_to_cart, hf, hk]

lemma applyOp_pos (catalog : List Product) (cart : Cart) (op : CartOp)
    (hcart : ∀ kv ∈ cart, 1 ≤ kv.2.quantity)
    (hop : opQtyPositive op = true) :
    ∀ kv ∈ applyOp catalog cart op, 1 ≤ kv.2.quantity := by
  cases op with
  | add pid qty =>
      have hq : (1 : ℤ) ≤ qty := by simpa [opQtyPositive] using hop
      cases hf : findProduct catalog pid with
      | none =>
          rw [applyOp_add_missing catalog cart pid qty hf]
          exact hcart
      | some p =>
          by_cases hk : hasKey cart pid = true
          · rw [applyOp_add_inc catalog cart pid qty p hf hk]
            intro kv hkv
            obtain ⟨kv0, hkv0, hEq⟩ := List.mem_map.mp hkv
            have h0 := hcart kv0 hkv0
            by_cases hb : (kv0.1 == pid) = true
            · rw [if_pos hb] at hEq
              rw [← hEq]
              dsimp only
              linarith
            · rw [if_neg hb] at hEq
              rw [← hEq]
              exact h0
          · have hk0 : hasKey cart pid = false := by
              cases hkk : hasKey cart pid
              · rfl
              · exact absurd hkk hk
            rw [applyOp_add_new catalog cart pid qty p hf hk0]
            intro kv hkv
            rcases List.mem_append.mp hkv with h | h
            · exact hcart kv h
            · have hkv2 : kv = (pid, (⟨p.name, p.price, qty, none⟩ : CartEntry)) := by
                simpa using h
              rw [hkv2]
              exact hq
  | remove pid =>
      show ∀ kv ∈ remove_from_cart cart pid, 1 ≤ kv.2.quantity
      unfold remove_from_cart
      by_cases hk : hasKey cart pid = true
      · rw [if_pos hk]
        intro kv hkv
        exact hcart kv (List.mem_filter.mp hkv).1
      · rw [if_neg hk]
        exact hcart

lemma applyOps_pos (catalog : List Product) (ops : List CartOp) :
    ∀ cart : Cart, (∀ kv ∈ cart, 1 ≤ kv.2.quantity) →
      (∀ op ∈ ops, opQtyPositive op = true) →
      ∀ kv ∈ applyOps catalog cart ops, 1 ≤ kv.2.quantity := by
  induction ops with
  | nil =>
      intro cart hc _
      simpa [applyOps] using hc
  | cons op rest ih =>
      intro cart hc hops
      have h1 := applyOp_pos catalog cart op hc (hops op (List.mem_cons_self op rest))
      have h2 := ih (applyOp catalog cart op) h1
        (fun o ho => hops o (List.mem_cons_of_mem op ho))
      simpa [applyOps, List.foldl_cons] using h2

/-- C6 (amended): starting from an empty session, every cart entry keeps
quantity ≥ 1 across any sequence of add and remove requests PROVIDED every
add request's quantity parameter is ≥ 1; the unamended claim, over
arbitrary request-supplied quantities, is refuted by the quantity-0 request
above. -/
theorem cart_quantities_positive (catalog : List Product) (ops : List CartOp)
    (hops : ∀ op ∈ ops, opQtyPositive op = true) :
    ∀ kv ∈ applyOps catalog [] ops, 1 ≤ kv.2.quantity :=
  applyOps_pos catalog ops [] (by intro kv h; cases h) hops

/-- Witness for C6 (amended) on a concrete request sequence. -/
theorem cart_quantities_positive_witness :
    (∀ op ∈ opsC6, opQtyPositive op = true) ∧
    ∀ kv ∈ applyOps catalogC6 [] opsC6, 1 ≤ kv.2.quantity :=
  ⟨by decide, cart_quantities_positive catalogC6 opsC6 (by decide)⟩

/-- C9: the order-management listing is newest-created-first, both
unfiltered (a permutation of the whole table) and under a non-empty exact
status filter, where it holds exactly the orders whose status matches. -/
theorem order_list_sorted_and_filtered (orders : List Order) (s : String)
    (hs : s ≠ "") :
    List.Sorted (fun a b : Order => b.created_at ≤ a.created_at)
      (order_list orders none) ∧
    (order_list orders none).Perm orders ∧
    List.Sorted (fun a b : Order => b.created_at ≤ a.created_at)
      (order_list orders (some s)) ∧
    (order_list orders (some s)).Perm
      (orders.filter (fun o => o.status == s)) := by
  have htrans : ∀ a b c : Order,
      decide (b.created_at ≤ a.created_at) = true →
      decide (c.created_at ≤ b.created_at) = true →
      decide (c.created_at ≤ a.created_at) = true := by
    intro a b c h1 h2
    rw [decide_eq_true_iff] at h1 h2 ⊢
    omega
  have htotal : ∀ a b : Order,
      (decide (b.created_at ≤ a.created_at) ||
       decide (a.created_at ≤ b.created_at)) = true := by
    intro a b
    rcases Nat.le_total b.created_at a.created_at with h | h <;> simp [h]
  have hsorted : List.Sorted (fun a b : Order => b.created_at ≤ a.created_at)
      (orders.mergeSort (fun a b => decide (b.created_at ≤ a.created_at))) :=
    (List.sorted_mergeSort htrans htotal orders).imp
      (fun h => decide_eq_true_iff.mp h)
  have hperm := List.mergeSort_perm orders
    (fun a b : Order => decide (b.created_at ≤ a.created_at))
  have hsne : (s == "") = false := by
    cases hb : (s == "")
    · rfl
    · exact absurd (beq_iff_eq.mp hb) hs
  refine ⟨?_, ?_, ?_, ?_⟩
  · simpa [order_list] using hsorted
  · simpa [order_list] using hperm
  · simp only [order_list, hsne, Bool.false_eq_true, if_false]
    exact List.Pairwise.sublist (List.filter_sublist _) hsorted
  · simp only [order_list, hsne, Bool.false_eq_true, if_false]
    exact hperm.filter _

/-- Witness for C9 at a concrete three-order table filtered on pending. -/
theorem order_list_sorted_and_filtered_witness :
    ("pending" ≠ "") ∧
    (List.Sorted (fun a b : Order => b.created_at ≤ a.created_at)
       (order_list ordersC9 none) ∧
     (order_list ordersC9 none).Perm ordersC9 ∧
     List.Sorted (fun a b : Order => b.created_at ≤ a.created_at)
       (order_list ordersC9 (some "pending")) ∧
     (order_list ordersC9 (some "pending")).Perm
       (ordersC9.filter (fun o => o.status == "pending"))) :=
  ⟨by decide, order_list_sorted_and_filtered ordersC9 "pending" (by decide)⟩
